import Mathlib

/-!
Verification of the city_walkability choropleth core: the `ColorScheme`
classes from the mapping helper file and the travel-time aggregation
(`update_travel_times`) from `make_travel_time_maps.js`, shallowly embedded
in Lean 4.  JavaScript numbers relevant here are rationals extended with
`NaN`; property access on a missing key yields `undefined`, which both
`Math.max` and `>=` treat like `NaN` (comparison false, max poisoned), so
the embedding folds `undefined` and `NaN` into one `nan` constructor.
-/

set_option autoImplicit false

namespace CityWalkability

/-- A JavaScript number as used by this code base: a rational or `NaN`
(also standing in for `undefined` in numeric context). -/
inductive JSNum where
  | num (q : ℚ)
  | nan
deriving DecidableEq

/-- JS `Math.max` on two numbers: `NaN` (or `undefined`) poisons the result. -/
def jsMax : JSNum → JSNum → JSNum
  | JSNum.num a, JSNum.num b => JSNum.num (max a b)
  | _, _ => JSNum.nan

/-- JS `value >= limit`: false whenever either side is `NaN`/`undefined`. -/
def jsGe : JSNum → JSNum → Bool
  | JSNum.num a, JSNum.num b => decide (b ≤ a)
  | _, _ => false

/-- JS array indexing `l[ii]` on a numeric array: out of range gives
`undefined`, modelled as `nan`. -/
def jsIndexNum (l : List ℚ) (ii : Nat) : JSNum :=
  match l.get? ii with
  | some q => JSNum.num q
  | none => JSNum.nan

/-- JS array indexing `l[ii]` on a string array in string context:
out of range gives `undefined`, which string-coerces to "undefined". -/
def jsIndexStr (l : List String) (ii : Nat) : String :=
  match l.get? ii with
  | some s => s
  | none => "undefined"

/-- JS `value == l[ii]` for a categorical key array: comparison with an
out-of-range (`undefined`) entry is false. -/
def jsEqIndex {α : Type} [DecidableEq α] (value : α) (l : List α) (ii : Nat) : Bool :=
  match l.get? ii with
  | some k => decide (value = k)
  | none => false

/-- The `ColorScheme` base class: the constructor stores `limits_asc`,
`colors`, `labels` and `na_color` (default `'#888'`).  `α` is the type of
classification keys (`ℚ` for the numeric subclass). -/
structure ColorScheme (α : Type) where
  limits : List α
  colors : List String
  labels : List String
  na_color : String
deriving DecidableEq

/-- The `ColorScheme` constructor body: plain field assignment, no
validation of any kind. -/
def ColorScheme.construct {α : Type} (limits_asc : List α)
    (colors labels : List String) (na_color : String) : ColorScheme α :=
  { limits := limits_asc, colors := colors, labels := labels, na_color := na_color }

/-- One iteration body of `legend_html`: the string appended for index `ii`
(`'<b style="background:' + colors[ii] + '"></b> ' + labels[ii]`). -/
def ColorScheme.legend_entry {α : Type} (cs : ColorScheme α) (ii : Nat) : String :=
  "<b style=\"background:" ++ jsIndexStr cs.colors ii ++ "\"></b> " ++
    jsIndexStr cs.labels ii

/-- The `legend_html` loop from index `ii` with `fuel` iterations left:
each iteration appends the entry and, when `ii < labels.length - 1`, the
`<br/>` separator. -/
def ColorScheme.legend_from {α : Type} (cs : ColorScheme α) : Nat → Nat → String
  | _, 0 => ""
  | ii, fuel + 1 =>
    cs.legend_entry ii ++ (if ii < cs.labels.length - 1 then "<br/>" else "") ++
      cs.legend_from (ii + 1) fuel

/-- The method `ColorScheme.legend_html`: loop `ii` over `0 .. labels.length - 1`,
appending entry and conditional separator into `innerHTML`. -/
def ColorScheme.legend_html {α : Type} (cs : ColorScheme α) : String :=
  cs.legend_from 0 cs.labels.length

/-- The method `ColorSchemeNumeric.color_from_value`: start from `na_color`, then for
each `ii` in `0 .. colors.length - 1`, overwrite with `colors[ii]` whenever
`value >= limits[ii]`. -/
def ColorSchemeNumeric.color_from_value (cs : ColorScheme ℚ) (value : JSNum) : String :=
  (List.range cs.colors.length).foldl
    (fun val_color ii =>
      if jsGe value (jsIndexNum cs.limits ii) then jsIndexStr cs.colors ii else val_color)
    cs.na_color

/-- The method `ColorSchemeCategorical.color_from_value`: start from `na_color`, then
for each `ii` in `0 .. colors.length - 1`, overwrite with `colors[ii]`
whenever `value == limits[ii]`. -/
def ColorSchemeCategorical.color_from_value {α : Type} [DecidableEq α]
    (cs : ColorScheme α) (value : α) : String :=
  (List.range cs.colors.length).foldl
    (fun val_color ii =>
      if jsEqIndex value cs.limits ii then jsIndexStr cs.colors ii else val_color)
    cs.na_color

/-- The travel-time color scheme `ttColorScheme` from
`make_travel_time_maps.js`, constructed with the default `na_color`. -/
def ttColorScheme : ColorScheme ℚ :=
  ColorScheme.construct [0, 5, 10, 15, 20, 25, 30]
    ["#0868ac", "#5aabac", "#abedab", "#fda668", "#dd643c", "#b8432e", "#999999"]
    ["Under 5 min", "5 - 10 min", "10 - 15 min", "15 - 20 min", "20 - 25 min",
      "25 - 30 min", "Over 30 min"]
    "#888"

/-- A GeoJSON feature: a `properties` object (string-keyed JS numbers, in
insertion order) and an opaque geometry. -/
structure Feature where
  properties : List (String × JSNum)
  geometry : String
deriving DecidableEq

/-- A Leaflet layer: it may or may not carry a `feature` key; `extra`
stands for all its other (untouched) data. -/
structure Layer where
  feature : Option Feature
  extra : List (String × JSNum)
deriving DecidableEq

/-- JS object property read `props[key]`: first binding wins; a missing
key yields `undefined` (`nan` in numeric context). -/
def getProp : List (String × JSNum) → String → JSNum
  | [], _ => JSNum.nan
  | (k, v) :: rest, key => if k = key then v else getProp rest key

/-- JS object property write `props[key] = v`: overwrite in place if the
key exists, append otherwise. -/
def setProp : List (String × JSNum) → String → JSNum → List (String × JSNum)
  | [], key, v => [(key, v)]
  | (k, w) :: rest, key, v =>
    if k = key then (key, v) :: rest else (k, w) :: setProp rest key v

/-- The function `update_travel_times(layer, destinations)` from
`make_travel_time_maps.js`: if the layer has a `feature` key, set
`feature.properties.tt` to `999` when `destinations` is empty, otherwise
reset it to `0` and fold `tt = Math.max(tt, properties[destination])` over
the destinations (each read going through the already-mutated properties
object); return the layer. -/
def update_travel_times (layer : Layer) (destinations : List String) : Layer :=
  match layer.feature with
  | none => layer
  | some f =>
    if destinations.length == 0 then
      let f2 := { f with properties := setProp f.properties "tt" (JSNum.num 999) }
      { layer with feature := some f2 }
    else
      let props2 := destinations.foldl
        (fun props destination =>
          setProp props "tt" (jsMax (getProp props "tt") (getProp props destination)))
        (setProp f.properties "tt" (JSNum.num 0))
      let f2 := { f with properties := props2 }
      { layer with feature := some f2 }

/-- The recompute-all pass
`data_layer.eachLayer((layer) => update_travel_times(layer, map_terms))`:
apply `update_travel_times` to every layer with the same active set. -/
def recompute_all (layers : List Layer) (destinations : List String) : List Layer :=
  layers.map (fun layer => update_travel_times layer destinations)

/-- Spec-side rendering of an ordered legend (color, label) entry, as the
spec describes `legend_markup`: used only to compare against
`legend_html`. -/
def specLegendEntry (color label : String) : String :=
  "<b style=\"background:" ++ color ++ "\"></b> " ++ label

/-- Spec-side legend assembly: the entries in order, with exactly one
separator between consecutive entries and none after the last. -/
def specLegendJoin : List String → String
  | [] => ""
  | [e] => e
  | e :: rest => e ++ "<br/>" ++ specLegendJoin rest

/-- A deliberately misconfigured scheme: 2 limits, 1 color, 3 labels. -/
def badScheme : ColorScheme ℚ :=
  ColorScheme.construct [0, 5] ["#111111"] ["a", "b", "c"] "#888"

/-- A categorical scheme with a duplicated key, to exercise
last-match-wins. -/
def catScheme : ColorScheme String :=
  ColorScheme.construct ["a", "b", "a"] ["#c1", "#c2", "#c3"] ["A", "B", "C"] "#888"

/-- The feature of the spec's concrete scenario 2:
`{groceries: 4, parks: 12, cafes: 2}`. -/
def sampleFeature : Feature :=
  { properties := [("groceries", JSNum.num 4), ("parks", JSNum.num 12), ("cafes", JSNum.num 2)],
    geometry := "poly0" }

/-- A layer carrying `sampleFeature`. -/
def sampleLayer : Layer :=
  { feature := some sampleFeature, extra := [("id", JSNum.num 1)] }

/-- A layer without a `feature` key. -/
def noFeatureLayer : Layer :=
  { feature := none, extra := [("id", JSNum.num 7)] }

/-- The per-category travel times of `sampleFeature` as a plain rational
function (used to state the max property on the sample). -/
def sampleVq : String → ℚ := fun d =>
  if d = "groceries" then 4 else if d = "parks" then 12 else 2

/-! ## Generic lemmas about the `foldl` translation of the index loops -/

/-- Peeling the last iteration off a loop over `0 .. n`. -/
theorem foldl_range_succ {β : Type} (g : β → Nat → β) (init : β) (n : Nat) :
    (List.range (n + 1)).foldl g init = g ((List.range n).foldl g init) n := by
  rw [List.range_succ, List.foldl_append, List.foldl_cons, List.foldl_nil]

/-- A select-last loop does not change between iterations whose condition
is false. -/
theorem foldl_if_stable (p : Nat → Bool) (f : Nat → String) (init : String) :
    ∀ k j, j ≤ k → (∀ m, j ≤ m → m < k → p m = false) →
      (List.range k).foldl (fun c ii => if p ii then f ii else c) init =
        (List.range j).foldl (fun c ii => if p ii then f ii else c) init := by
  intro k
  induction k with
  | zero =>
    intro j hj _
    have hj0 : j = 0 := Nat.le_zero.mp hj
    rw [hj0]
  | succ k ih =>
    intro j hj hst
    rcases Nat.lt_or_ge j (k + 1) with h | h
    · have hk : j ≤ k := Nat.lt_succ_iff.mp h
      rw [foldl_range_succ, hst k hk (Nat.lt_succ_self k)]
      simp only [Bool.false_eq_true, if_false]
      exact ih j hk (fun m h1 h2 => hst m h1 (Nat.lt_succ_of_lt h2))
    · have hj1 : j = k + 1 := Nat.le_antisymm hj h
      rw [hj1]

/-- A select-last loop returns `f k` when `k` is the last index whose
condition holds. -/
theorem foldl_if_last (p : Nat → Bool) (f : Nat → String) (init : String)
    (n k : Nat) (hk : k < n) (hpk : p k = true)
    (hst : ∀ m, k < m → m < n → p m = false) :
    (List.range n).foldl (fun c ii => if p ii then f ii else c) init = f k := by
  have h1 := foldl_if_stable p f init n (k + 1) hk
    (fun m h1 h2 => hst m h1 h2)
  rw [h1, foldl_range_succ, hpk]
  simp

/-- A select-last loop returns its initial value when no condition
holds. -/
theorem foldl_if_none (p : Nat → Bool) (f : Nat → String) (init : String)
    (n : Nat) (hst : ∀ m, m < n → p m = false) :
    (List.range n).foldl (fun c ii => if p ii then f ii else c) init = init := by
  have h1 := foldl_if_stable p f init n 0 (Nat.zero_le n)
    (fun m _ h2 => hst m h2)
  rw [h1]
  rfl

/-! ## Numeric color classification (C2, C3) -/

/-- C2: for a numeric `ColorScheme` with strictly ascending thresholds and
colors of the same length, `color_from_value` returns `na_color` below the
lowest threshold, `colors[i]` on `[t_i, t_{i+1})` (ties at a boundary going
to the higher bucket, since the comparison is `>=`), and `colors[n-1]` at
or above the top threshold. -/
theorem numeric_color_buckets (cs : ColorScheme ℚ)
    (hlen : cs.limits.length = cs.colors.length)
    (hsort : cs.limits.Sorted (· < ·)) (v : ℚ) :
    (∀ l0, cs.limits.get? 0 = some l0 → v < l0 →
      ColorSchemeNumeric.color_from_value cs (JSNum.num v) = cs.na_color) ∧
    (∀ i li li1 ci, cs.limits.get? i = some li → cs.limits.get? (i + 1) = some li1 →
      cs.colors.get? i = some ci → li ≤ v → v < li1 →
      ColorSchemeNumeric.color_from_value cs (JSNum.num v) = ci) ∧
    (∀ ln cn, cs.limits.get? (cs.limits.length - 1) = some ln →
      cs.colors.get? (cs.limits.length - 1) = some cn → ln ≤ v →
      ColorSchemeNumeric.color_from_value cs (JSNum.num v) = cn) := by
  have hmono : ∀ i j (hij : i ≤ j) (hj : j < cs.limits.length),
      cs.limits.get ⟨i, lt_of_le_of_lt hij hj⟩ ≤ cs.limits.get ⟨j, hj⟩ := by
    intro i j hij hj
    rcases Nat.eq_or_lt_of_le hij with heq | hlt
    · subst heq; exact le_refl _
    · exact le_of_lt (List.Sorted.rel_get_of_lt hsort hlt)
  have hcondT : ∀ ii (h : ii < cs.limits.length), cs.limits.get ⟨ii, h⟩ ≤ v →
      jsGe (JSNum.num v) (jsIndexNum cs.limits ii) = true := by
    intro ii h hle
    rw [List.get_eq_getElem] at hle
    simp [jsGe, jsIndexNum, List.get?_eq_getElem?, List.getElem?_eq_getElem h, hle]
  have hcondF : ∀ ii (h : ii < cs.limits.length), v < cs.limits.get ⟨ii, h⟩ →
      jsGe (JSNum.num v) (jsIndexNum cs.limits ii) = false := by
    intro ii h hlt
    rw [List.get_eq_getElem] at hlt
    simp [jsGe, jsIndexNum, List.get?_eq_getElem?, List.getElem?_eq_getElem h,
      not_le.mpr hlt]
  refine ⟨?_, ?_, ?_⟩
  · intro l0 h0 hv0
    obtain ⟨h0len, h0eq⟩ := List.get?_eq_some.mp h0
    unfold ColorSchemeNumeric.color_from_value
    apply foldl_if_none
    intro m hm
    rw [← hlen] at hm
    apply hcondF m hm
    calc v < l0 := hv0
      _ = cs.limits.get ⟨0, h0len⟩ := h0eq.symm
      _ ≤ cs.limits.get ⟨m, hm⟩ := hmono 0 m (Nat.zero_le m) hm
  · intro i li li1 ci hi hi1 hci hle hlt
    obtain ⟨hi1len, hi1eq⟩ := List.get?_eq_some.mp hi1
    obtain ⟨hilen, hieq⟩ := List.get?_eq_some.mp hi
    obtain ⟨hicol, hcieq⟩ := List.get?_eq_some.mp hci
    have hres : ColorSchemeNumeric.color_from_value cs (JSNum.num v) =
        jsIndexStr cs.colors i := by
      unfold ColorSchemeNumeric.color_from_value
      apply foldl_if_last _ _ _ _ i hicol
      · apply hcondT i hilen
        rw [hieq]; exact hle
      · intro m h1 h2
        rw [← hlen] at h2
        apply hcondF m h2
        calc v < li1 := hlt
          _ = cs.limits.get ⟨i + 1, hi1len⟩ := hi1eq.symm
          _ ≤ cs.limits.get ⟨m, h2⟩ := hmono (i + 1) m h1 h2
    rw [hres]
    rw [List.get?_eq_getElem?] at hci
    simp [jsIndexStr, hci]
  · intro ln cn hln hcn hle
    obtain ⟨hnlen, hlneq⟩ := List.get?_eq_some.mp hln
    obtain ⟨hncol, hcneq⟩ := List.get?_eq_some.mp hcn
    have hres : ColorSchemeNumeric.color_from_value cs (JSNum.num v) =
        jsIndexStr cs.colors (cs.limits.length - 1) := by
      unfold ColorSchemeNumeric.color_from_value
      apply foldl_if_last _ _ _ _ (cs.limits.length - 1) hncol
      · apply hcondT _ hnlen
        rw [hlneq]; exact hle
      · intro m h1 h2
        rw [← hlen] at h2
        exact absurd h2 (Nat.not_lt.mpr (Nat.le_of_pred_lt h1))
    rw [hres]
    rw [List.get?_eq_getElem?] at hcn
    simp [jsIndexStr, hcn]

/-- Witness for C2: `ttColorScheme` has ascending thresholds and
`color_from_value(7)` lands in the `[5, 10)` bucket, color `#5aabac`. -/
theorem numeric_color_buckets_witness :
    ttColorScheme.limits.length = ttColorScheme.colors.length ∧
      ColorSchemeNumeric.color_from_value ttColorScheme (JSNum.num 7) = "#5aabac" :=
  ⟨by decide,
    (numeric_color_buckets ttColorScheme (by decide) (by decide) 7).2.1 1 5 10 "#5aabac"
      (by decide) (by decide) (by decide) (by decide) (by decide)⟩

/-- C6: for a categorical `ColorScheme` with keys and colors of equal
length, `color_from_value` returns the color of the last key equal to the
value, and `na_color` when no key matches. -/
theorem categorical_color_last_match {α : Type} [DecidableEq α]
    (cs : ColorScheme α) (hlen : cs.limits.length = cs.colors.length) (value : α) :
    (∀ i ci, cs.limits.get? i = some value → cs.colors.get? i = some ci →
      (∀ j, i < j → cs.limits.get? j ≠ some value) →
      ColorSchemeCategorical.color_from_value cs value = ci) ∧
    ((∀ i, cs.limits.get? i ≠ some value) →
      ColorSchemeCategorical.color_from_value cs value = cs.na_color) := by
  constructor
  · intro i ci hi hci hlast
    obtain ⟨hicol, _⟩ := List.get?_eq_some.mp hci
    have hres : ColorSchemeCategorical.color_from_value cs value =
        jsIndexStr cs.colors i := by
      unfold ColorSchemeCategorical.color_from_value
      apply foldl_if_last _ _ _ _ i hicol
      · unfold jsEqIndex
        rw [hi]
        simp
      · intro m h1 _
        have hne := hlast m h1
        unfold jsEqIndex
        cases hm : cs.limits.get? m with
        | none => rfl
        | some k =>
          rw [hm] at hne
          simp only [decide_eq_false_iff_not]
          intro hv
          exact hne (by rw [hv])
    rw [hres]
    rw [List.get?_eq_getElem?] at hci
    simp [jsIndexStr, hci]
  · intro hnone
    unfold ColorSchemeCategorical.color_from_value
    apply foldl_if_none
    intro m _
    have hne := hnone m
    unfold jsEqIndex
    cases hm : cs.limits.get? m with
    | none => rfl
    | some k =>
      rw [hm] at hne
      simp only [decide_eq_false_iff_not]
      intro hv
      exact hne (by rw [hv])

/-- Witness for C6: in `catScheme` the key `"a"` appears at indices 0 and
2; the last match wins and yields `"#c3"`, while the unknown key `"z"`
yields the fallback `"#888"`. -/
theorem categorical_color_last_match_witness :
    ColorSchemeCategorical.color_from_value catScheme "a" = "#c3" ∧
      ColorSchemeCategorical.color_from_value catScheme "z" = "#888" :=
  ⟨(categorical_color_last_match catScheme (by decide) "a").1 2 "#c3"
      (by decide) (by decide)
      (by
        intro j hj
        match j, hj with
        | 0, hj => exact absurd hj (by decide)
        | 1, hj => exact absurd hj (by decide)
        | 2, hj => exact absurd hj (by decide)
        | n + 3, _ => exact fun h => Option.noConfusion h),
    (categorical_color_last_match catScheme (by decide) "z").2
      (by
        intro i
        match i with
        | 0 => decide
        | 1 => decide
        | 2 => decide
        | n + 3 => exact fun h => Option.noConfusion h)⟩

/-- C3 counterexample: on `ttColorScheme` the sentinel `999` produced by an
empty selection is classified at or above the top threshold `30`, so
`color_from_value(999)` returns `colors[6] = "#999999"` — the color of the
`Over 30 min` bucket — and not the fallback `na_color = "#888"`. -/
theorem sentinel_color_counterexample :
    ColorSchemeNumeric.color_from_value ttColorScheme (JSNum.num 999) = "#999999" ∧
      ttColorScheme.na_color = "#888" ∧
      ttColorScheme.colors.get? 6 = some "#999999" ∧
      ColorSchemeNumeric.color_from_value ttColorScheme (JSNum.num 999) ≠
        ttColorScheme.na_color := by
  refine ⟨by decide, by decide, by decide, by decide⟩

/-- C3 amended: `color_from_value(999)` on the travel-time scheme returns
the color of the last real threshold bucket (`colors[6]`, the
`Over 30 min` entry), because `999` sorts above every threshold; it does
not return the fallback `na_color`. -/
theorem sentinel_color_top_bucket :
    ColorSchemeNumeric.color_from_value ttColorScheme (JSNum.num 999) =
        jsIndexStr ttColorScheme.colors 6 ∧
      jsIndexStr ttColorScheme.colors 6 = "#999999" ∧
      ttColorScheme.labels.get? 6 = some "Over 30 min" ∧
      ColorSchemeNumeric.color_from_value ttColorScheme (JSNum.num 999) ≠
        ttColorScheme.na_color := by
  refine ⟨by decide, by decide, by decide, by decide⟩

/-- C5 counterexample: constructing a `ColorScheme` with limits, colors
and labels of pairwise different lengths (2, 1 and 3) succeeds, stores the
full sequences untruncated, and the resulting component is still usable
(`color_from_value(7)` runs and answers). -/
theorem construct_mismatched_counterexample :
    badScheme.limits = [0, 5] ∧
      badScheme.colors = ["#111111"] ∧
      badScheme.labels = ["a", "b", "c"] ∧
      badScheme.limits.length ≠ badScheme.colors.length ∧
      badScheme.colors.length ≠ badScheme.labels.length ∧
      ColorSchemeNumeric.color_from_value badScheme (JSNum.num 7) = "#111111" := by
  refine ⟨by decide, by decide, by decide, by decide, by decide, by decide⟩

/-- C5 amended: the `ColorScheme` constructor performs no validation at
all — for every combination of limits, colors, labels and fallback color
(equal lengths or not) it stores the four arguments unchanged, so nothing
is rejected and nothing is truncated at construction time. -/
theorem construct_stores_unvalidated {α : Type} (limits_asc : List α)
    (colors labels : List String) (na : String) :
    (ColorScheme.construct limits_asc colors labels na).limits = limits_asc ∧
      (ColorScheme.construct limits_asc colors labels na).colors = colors ∧
      (ColorScheme.construct limits_asc colors labels na).labels = labels ∧
      (ColorScheme.construct limits_asc colors labels na).na_color = na :=
  ⟨rfl, rfl, rfl, rfl⟩

/-! ## Legend rendering (C8) -/

/-- The legend loop from index `ii` renders the remaining (color, label)
pairs, separator between consecutive entries only. -/
theorem legend_from_spec {α : Type} (cs : ColorScheme α)
    (hlen : cs.colors.length = cs.labels.length) :
    ∀ fuel ii, ii + fuel = cs.labels.length →
      cs.legend_from ii fuel =
        specLegendJoin
          (List.zipWith specLegendEntry (cs.colors.drop ii) (cs.labels.drop ii)) := by
  intro fuel
  induction fuel with
  | zero =>
    intro ii hii
    rw [Nat.add_zero] at hii
    rw [hii, ← hlen, List.drop_length cs.colors]
    rfl
  | succ fuel ih =>
    intro ii hii
    have hii_lab : ii < cs.labels.length := by omega
    have hii_col : ii < cs.colors.length := by rw [hlen]; exact hii_lab
    have hdrop_lab := List.drop_eq_getElem_cons hii_lab
    have hdrop_col := List.drop_eq_getElem_cons hii_col
    have hentry : cs.legend_entry ii =
        specLegendEntry cs.colors[ii] cs.labels[ii] := by
      unfold ColorScheme.legend_entry specLegendEntry jsIndexStr
      rw [List.get?_eq_getElem?, List.get?_eq_getElem?,
        List.getElem?_eq_getElem hii_col, List.getElem?_eq_getElem hii_lab]
    rw [hdrop_lab, hdrop_col, List.zipWith_cons_cons]
    cases fuel with
    | zero =>
      have hlast : ii = cs.labels.length - 1 := by omega
      have hcond : ¬ ii < cs.labels.length - 1 := by omega
      show cs.legend_entry ii ++ _ ++ cs.legend_from (ii + 1) 0 = _
      rw [if_neg hcond]
      have hnil : cs.labels.drop (ii + 1) = [] := by
        apply List.drop_eq_nil_of_le
        omega
      rw [hnil, List.zipWith_nil_right]
      show cs.legend_entry ii ++ "" ++ "" = specLegendJoin [_]
      rw [String.append_empty, String.append_empty, hentry]
      rfl
    | succ fuel2 =>
      have hcond : ii < cs.labels.length - 1 := by omega
      show cs.legend_entry ii ++ _ ++ cs.legend_from (ii + 1) (fuel2 + 1) = _
      rw [if_pos hcond, hentry, ih (ii + 1) (by omega)]
      have hii1_lab : ii + 1 < cs.labels.length := by omega
      have hii1_col : ii + 1 < cs.colors.length := by rw [hlen]; exact hii1_lab
      rw [List.drop_eq_getElem_cons hii1_lab, List.drop_eq_getElem_cons hii1_col,
        List.zipWith_cons_cons]
      rfl

/-- C8: for every `ColorScheme` whose colors and labels have equal length,
`legend_html` renders the (color, label) entries in construction order with
exactly one `<br/>` separator between consecutive entries and none after
the last (so a one-entry legend has none at all). -/
theorem legend_html_entries {α : Type} (cs : ColorScheme α)
    (hlen : cs.colors.length = cs.labels.length) :
    cs.legend_html = specLegendJoin (List.zipWith specLegendEntry cs.colors cs.labels) := by
  have h := legend_from_spec cs hlen cs.labels.length 0 (Nat.zero_add _)
  rw [List.drop_zero, List.drop_zero] at h
  exact h

/-- Witness for C8: the legend of `ttColorScheme` (7 entries) and of a
one-entry scheme, both matching the spec-side join. -/
theorem legend_html_entries_witness :
    ttColorScheme.legend_html =
        specLegendJoin (List.zipWith specLegendEntry ttColorScheme.colors ttColorScheme.labels) ∧
      (ColorScheme.construct ([] : List ℚ) ["#abc"] ["only"] "#888").legend_html =
        specLegendEntry "#abc" "only" :=
  ⟨legend_html_entries ttColorScheme (by decide),
    legend_html_entries (ColorScheme.construct ([] : List ℚ) ["#abc"] ["only"] "#888")
      (by decide)⟩

/-! ## The JS object model: read/write lemmas -/

/-- Reading back the key just written returns the written value. -/
theorem getProp_setProp_self (l : List (String × JSNum)) (k : String) (v : JSNum) :
    getProp (setProp l k v) k = v := by
  induction l with
  | nil => simp [setProp, getProp]
  | cons hd tl ih =>
    obtain ⟨k0, v0⟩ := hd
    by_cases h : k0 = k
    · simp [setProp, h, getProp]
    · simp [setProp, h, getProp, ih]

/-- Writing one key leaves every other key unchanged. -/
theorem getProp_setProp_ne (l : List (String × JSNum)) (k key : String) (v : JSNum)
    (h : key ≠ k) : getProp (setProp l k v) key = getProp l key := by
  induction l with
  | nil =>
    simp only [setProp, getProp]
    rw [if_neg (fun hh => h hh.symm)]
  | cons hd tl ih =>
    obtain ⟨k0, v0⟩ := hd
    by_cases h0 : k0 = k
    · subst h0
      simp only [setProp, if_pos rfl, getProp]
      rw [if_neg (fun hh => h hh.symm), if_neg (fun hh => h hh.symm)]
    · simp only [setProp, if_neg h0, getProp]
      by_cases h1 : k0 = key
      · rw [if_pos h1, if_pos h1]
      · rw [if_neg h1, if_neg h1, ih]

/-- Writing the same key twice keeps only the second write. -/
theorem setProp_setProp (l : List (String × JSNum)) (k : String) (v w : JSNum) :
    setProp (setProp l k v) k w = setProp l k w := by
  induction l with
  | nil => simp [setProp]
  | cons hd tl ih =>
    obtain ⟨k0, v0⟩ := hd
    by_cases h0 : k0 = k
    · simp [setProp, h0]
    · simp [setProp, h0, ih]

/-! ## The travel-time aggregation (C1, C4, C7, C9, C10) -/

/-- Normal form of `update_travel_times` on a layer with a feature and an
empty active list: `tt` is set to `999`. -/
theorem update_travel_times_nil (layer : Layer) (f : Feature)
    (hfeat : layer.feature = some f) :
    update_travel_times layer [] =
      { layer with feature := some { f with properties := setProp f.properties "tt" (JSNum.num 999) } } := by
  unfold update_travel_times
  rw [hfeat]
  rfl

/-- Normal form of `update_travel_times` on a layer with a feature and a
non-empty active list: `tt` is reset to `0` and the max-fold runs. -/
theorem update_travel_times_cons (layer : Layer) (f : Feature) (d : String)
    (rest : List String) (hfeat : layer.feature = some f) :
    update_travel_times layer (d :: rest) =
      { layer with feature := some { f with properties := ((d :: rest).foldl
          (fun props destination =>
            setProp props "tt" (jsMax (getProp props "tt") (getProp props destination)))
          (setProp f.properties "tt" (JSNum.num 0))) } } := by
  unfold update_travel_times
  rw [hfeat]
  rfl

/-- The aggregation loop only ever rewrites the `tt` key. -/
theorem fold_tt_shape (ds : List String) :
    ∀ (P : List (String × JSNum)) (x : JSNum),
      ∃ y, ds.foldl
          (fun props destination =>
            setProp props "tt" (jsMax (getProp props "tt") (getProp props destination)))
          (setProp P "tt" x) = setProp P "tt" y := by
  induction ds with
  | nil => exact fun P x => ⟨x, rfl⟩
  | cons d rest ih =>
    intro P x
    rw [List.foldl_cons, setProp_setProp]
    exact ih P _

/-- Existence of the `setProp`-normal form of `update_travel_times` on a
layer with a feature: only `tt` is touched. -/
theorem update_travel_times_tt_shape (layer : Layer) (f : Feature) (ds : List String)
    (hfeat : layer.feature = some f) :
    ∃ y, update_travel_times layer ds =
      { layer with feature := some { f with properties := setProp f.properties "tt" y } } := by
  cases ds with
  | nil => exact ⟨JSNum.num 999, update_travel_times_nil layer f hfeat⟩
  | cons d rest =>
    obtain ⟨y, hy⟩ := fold_tt_shape (d :: rest) f.properties (JSNum.num 0)
    refine ⟨y, ?_⟩
    rw [update_travel_times_cons layer f d rest hfeat, hy]

/-- When every active category has a numeric value in the feature, the
aggregation loop computes the running maximum starting from the reset
value. -/
theorem fold_tt_num (vq : String → ℚ) :
    ∀ (ds : List String) (P : List (String × JSNum)), "tt" ∉ ds →
      (∀ d ∈ ds, getProp P d = JSNum.num (vq d)) → ∀ a : ℚ,
      ds.foldl
          (fun props destination =>
            setProp props "tt" (jsMax (getProp props "tt") (getProp props destination)))
          (setProp P "tt" (JSNum.num a)) =
        setProp P "tt" (JSNum.num (ds.foldl (fun acc d => max acc (vq d)) a)) := by
  intro ds
  induction ds with
  | nil => intro P _ _ a; rfl
  | cons d rest ih =>
    intro P hni hv a
    have hd_ne : d ≠ "tt" := by
      intro h
      apply hni
      rw [← h]
      exact List.mem_cons_self d rest
    rw [List.foldl_cons, List.foldl_cons, setProp_setProp, getProp_setProp_self,
      getProp_setProp_ne P "tt" d (JSNum.num a) hd_ne,
      hv d (List.mem_cons_self d rest)]
    exact ih P (fun hm => hni (List.mem_cons_of_mem d hm))
      (fun d2 hd2 => hv d2 (List.mem_cons_of_mem d hd2)) (max a (vq d))

/-- The running maximum is at least its starting value. -/
theorem foldl_max_le_init (vq : String → ℚ) :
    ∀ (ds : List String) (a : ℚ), a ≤ ds.foldl (fun acc d => max acc (vq d)) a := by
  intro ds
  induction ds with
  | nil => intro a; exact le_refl a
  | cons d rest ih =>
    intro a
    rw [List.foldl_cons]
    exact le_trans (le_max_left a (vq d)) (ih (max a (vq d)))

/-- The running maximum dominates every listed value. -/
theorem foldl_max_ge_mem (vq : String → ℚ) :
    ∀ (ds : List String) (d : String), d ∈ ds → ∀ a : ℚ,
      vq d ≤ ds.foldl (fun acc d2 => max acc (vq d2)) a := by
  intro ds
  induction ds with
  | nil => intro d hd; exact absurd hd (List.not_mem_nil d)
  | cons d0 rest ih =>
    intro d hd a
    rw [List.foldl_cons]
    rcases List.mem_cons.mp hd with heq | hmem
    · subst heq
      exact le_trans (le_max_right a (vq d)) (foldl_max_le_init vq rest (max a (vq d)))
    · exact ih d hmem (max a (vq d0))

/-- The running maximum is the starting value or one of the listed
values. -/
theorem foldl_max_cases (vq : String → ℚ) :
    ∀ (ds : List String) (a : ℚ),
      ds.foldl (fun acc d => max acc (vq d)) a = a ∨
        ∃ d ∈ ds, ds.foldl (fun acc d2 => max acc (vq d2)) a = vq d := by
  intro ds
  induction ds with
  | nil => intro a; exact Or.inl rfl
  | cons d0 rest ih =>
    intro a
    rw [List.foldl_cons]
    rcases ih (max a (vq d0)) with h | hex
    · rcases max_choice a (vq d0) with hm | hm
      · exact Or.inl (by rw [h, hm])
      · exact Or.inr ⟨d0, List.mem_cons_self d0 rest, by rw [h, hm]⟩
    · obtain ⟨d, hd, heq⟩ := hex
      exact Or.inr ⟨d, List.mem_cons_of_mem d0 hd, heq⟩

/-- C1: for a layer with a feature whose values at the active categories
are non-negative numbers (`tt` itself not being a category), the recompute
sets `tt` to `999` for the empty active list and to the maximum of the
per-category values for a non-empty active list. -/
theorem update_travel_times_effective_value (layer : Layer) (f : Feature)
    (ds : List String) (vq : String → ℚ)
    (hfeat : layer.feature = some f) (htt : "tt" ∉ ds)
    (hvals : ∀ d ∈ ds, getProp f.properties d = JSNum.num (vq d))
    (hnn : ∀ d ∈ ds, 0 ≤ vq d) :
    (ds = [] → ∃ f2, (update_travel_times layer ds).feature = some f2 ∧
      getProp f2.properties "tt" = JSNum.num 999) ∧
    (ds ≠ [] → ∃ f2 m, (update_travel_times layer ds).feature = some f2 ∧
      getProp f2.properties "tt" = JSNum.num m ∧
      m ∈ ds.map vq ∧ ∀ x ∈ ds.map vq, x ≤ m) := by
  constructor
  · intro hds
    subst hds
    rw [update_travel_times_nil layer f hfeat]
    exact ⟨_, rfl, getProp_setProp_self f.properties "tt" (JSNum.num 999)⟩
  · intro hds
    obtain ⟨d, rest, rfl⟩ := List.exists_cons_of_ne_nil hds
    have h1 := update_travel_times_cons layer f d rest hfeat
    rw [fold_tt_num vq (d :: rest) f.properties htt hvals 0] at h1
    rw [h1]
    refine ⟨_, (d :: rest).foldl (fun acc d2 => max acc (vq d2)) 0, rfl,
      getProp_setProp_self _ "tt" _, ?_, ?_⟩
    · rcases foldl_max_cases vq (d :: rest) 0 with h0 | hex
      · have hvd := foldl_max_ge_mem vq (d :: rest) d (List.mem_cons_self d rest) 0
        rw [h0] at hvd
        have h0d : 0 ≤ vq d := hnn d (List.mem_cons_self d rest)
        have hvd0 : vq d = 0 := le_antisymm hvd h0d
        rw [h0, ← hvd0]
        exact List.mem_map_of_mem vq (List.mem_cons_self d rest)
      · obtain ⟨d2, hd2, heq⟩ := hex
        rw [heq]
        exact List.mem_map_of_mem vq hd2
    · intro x hx
      obtain ⟨d2, hd2, rfl⟩ := List.mem_map.mp hx
      exact foldl_max_ge_mem vq (d :: rest) d2 hd2 0

/-- Witness for C1: scenario 2 of the spec — active `{groceries, parks}`
on `{groceries: 4, parks: 12, cafes: 2}` gives `tt = 12`, which is the
maximum over the active categories. -/
theorem update_travel_times_effective_value_witness :
    (∃ f2 m, (update_travel_times sampleLayer ["groceries", "parks"]).feature = some f2 ∧
      getProp f2.properties "tt" = JSNum.num m ∧
      m ∈ ["groceries", "parks"].map sampleVq ∧
      ∀ x ∈ ["groceries", "parks"].map sampleVq, x ≤ m) ∧
    (∃ f2, (update_travel_times sampleLayer ["groceries", "parks"]).feature = some f2 ∧
      getProp f2.properties "tt" = JSNum.num 12) :=
  ⟨(update_travel_times_effective_value sampleLayer sampleFeature ["groceries", "parks"]
      sampleVq rfl (by decide) (by decide) (by decide)).2 (by decide),
    by decide⟩

/-- Once `tt` holds `NaN`, the aggregation loop keeps it `NaN`. -/
theorem fold_tt_nan_start (ds : List String) :
    ∀ P, "tt" ∉ ds →
      ds.foldl (fun props destination =>
          setProp props "tt" (jsMax (getProp props "tt") (getProp props destination)))
        (setProp P "tt" JSNum.nan) = setProp P "tt" JSNum.nan := by
  induction ds with
  | nil => intro P _; rfl
  | cons d rest ih =>
    intro P hni
    rw [List.foldl_cons, setProp_setProp, getProp_setProp_self]
    have hmax : jsMax JSNum.nan (getProp (setProp P "tt" JSNum.nan) d) = JSNum.nan := by
      cases getProp (setProp P "tt" JSNum.nan) d <;> rfl
    rw [hmax]
    exact ih P (fun hm => hni (List.mem_cons_of_mem d hm))

/-- If some active category reads as `NaN`/`undefined` from the original
properties, the aggregation loop ends with `tt = NaN`. -/
theorem fold_tt_nan (ds : List String) :
    ∀ P x, "tt" ∉ ds → (∃ d ∈ ds, getProp P d = JSNum.nan) →
      ds.foldl (fun props destination =>
          setProp props "tt" (jsMax (getProp props "tt") (getProp props destination)))
        (setProp P "tt" x) = setProp P "tt" JSNum.nan := by
  induction ds with
  | nil =>
    intro P x _ hex
    obtain ⟨d, hd, _⟩ := hex
    exact absurd hd (List.not_mem_nil d)
  | cons d0 rest ih =>
    intro P x hni hex
    have hd0ne : d0 ≠ "tt" := by
      intro h
      apply hni
      rw [← h]
      exact List.mem_cons_self d0 rest
    rw [List.foldl_cons, setProp_setProp, getProp_setProp_self,
      getProp_setProp_ne P "tt" d0 x hd0ne]
    obtain ⟨d, hd, hnan⟩ := hex
    rcases List.mem_cons.mp hd with heq | hmem
    · subst heq
      rw [hnan]
      have hmax : jsMax x JSNum.nan = JSNum.nan := by cases x <;> rfl
      rw [hmax]
      exact fold_tt_nan_start rest P (fun hm => hni (List.mem_cons_of_mem d hm))
    · exact ih P _ (fun hm => hni (List.mem_cons_of_mem d0 hm)) ⟨d, hmem, hnan⟩

/-- C4: when a feature lacks a value for some active category (`tt` itself
not being a category), `update_travel_times` propagates the JS error value:
the property read yields `undefined`, `Math.max` turns it into `NaN`, and
the final `tt` is `NaN` — in particular it is not any number, so no numeric
default is silently substituted.  (The source never throws; `NaN`
propagation is its failure mode.) -/
theorem update_travel_times_missing_entry (layer : Layer) (f : Feature)
    (ds : List String) (d : String)
    (hfeat : layer.feature = some f) (htt : "tt" ∉ ds)
    (hd : d ∈ ds) (hmiss : getProp f.properties d = JSNum.nan) :
    ∃ f2, (update_travel_times layer ds).feature = some f2 ∧
      getProp f2.properties "tt" = JSNum.nan ∧
      ∀ q : ℚ, getProp f2.properties "tt" ≠ JSNum.num q := by
  have hne : ds ≠ [] := by
    intro h
    rw [h] at hd
    exact absurd hd (List.not_mem_nil d)
  obtain ⟨d0, rest, rfl⟩ := List.exists_cons_of_ne_nil hne
  have h1 := update_travel_times_cons layer f d0 rest hfeat
  rw [fold_tt_nan (d0 :: rest) f.properties (JSNum.num 0) htt ⟨d, hd, hmiss⟩] at h1
  rw [h1]
  refine ⟨_, rfl, getProp_setProp_self _ "tt" _, ?_⟩
  intro q hq
  rw [getProp_setProp_self] at hq
  exact JSNum.noConfusion hq

/-- Witness for C4: `restaurants` is active but `sampleFeature` has no
`restaurants` entry; the recompute completes with `tt = NaN`, never a
number. -/
theorem update_travel_times_missing_entry_witness :
    ("restaurants" ∈ ["restaurants"] ∧
        getProp sampleFeature.properties "restaurants" = JSNum.nan) ∧
      (∃ f2, (update_travel_times sampleLayer ["restaurants"]).feature = some f2 ∧
        getProp f2.properties "tt" = JSNum.nan ∧
        ∀ q : ℚ, getProp f2.properties "tt" ≠ JSNum.num q) :=
  ⟨⟨by decide, by decide⟩,
    update_travel_times_missing_entry sampleLayer sampleFeature ["restaurants"]
      "restaurants" rfl (by decide) (by decide) (by decide)⟩

/-- C9: on a layer with a feature, `update_travel_times` only mutates the
derived `tt` property: the layer's other data, the feature's geometry and
every property other than `tt` are unchanged.  (The embedding is pure;
the source assigns only to `layer.feature.properties.tt` and never to the
`destinations` argument, so the active-category list is untouched.) -/
theorem update_travel_times_frame (layer : Layer) (f : Feature) (ds : List String)
    (hfeat : layer.feature = some f) :
    (update_travel_times layer ds).extra = layer.extra ∧
      ∃ f2, (update_travel_times layer ds).feature = some f2 ∧
        f2.geometry = f.geometry ∧
        ∀ key, key ≠ "tt" → getProp f2.properties key = getProp f.properties key := by
  obtain ⟨y, hy⟩ := update_travel_times_tt_shape layer f ds hfeat
  rw [hy]
  exact ⟨rfl, ⟨_, rfl, rfl, fun key hkey =>
    getProp_setProp_ne f.properties "tt" key y hkey⟩⟩

/-- Witness for C9 at `sampleLayer` with active `{groceries}`. -/
theorem update_travel_times_frame_witness :
    (update_travel_times sampleLayer ["groceries"]).extra = sampleLayer.extra ∧
      ∃ f2, (update_travel_times sampleLayer ["groceries"]).feature = some f2 ∧
        f2.geometry = sampleFeature.geometry ∧
        ∀ key, key ≠ "tt" →
          getProp f2.properties key = getProp sampleFeature.properties key :=
  update_travel_times_frame sampleLayer sampleFeature ["groceries"] rfl

/-- C10: a layer without a `feature` key is returned completely unchanged,
for every active-category list; as the embedding is a total function, no
error is raised either. -/
theorem update_travel_times_no_feature (layer : Layer) (ds : List String)
    (hfeat : layer.feature = none) :
    update_travel_times layer ds = layer := by
  unfold update_travel_times
  rw [hfeat]

/-- Witness for C10: the featureless layer is unchanged under both an
empty and a non-empty active list. -/
theorem update_travel_times_no_feature_witness :
    update_travel_times noFeatureLayer ["groceries"] = noFeatureLayer ∧
      update_travel_times noFeatureLayer [] = noFeatureLayer :=
  ⟨update_travel_times_no_feature noFeatureLayer ["groceries"] rfl,
    update_travel_times_no_feature noFeatureLayer [] rfl⟩

/-- One recompute of a single layer is idempotent: the recompute reads the
per-category values (and the just-reset `tt`) but never the stale `tt`, so
a second pass with the same active list reproduces the same layer. -/
theorem update_travel_times_idem (layer : Layer) (ds : List String) :
    update_travel_times (update_travel_times layer ds) ds = update_travel_times layer ds := by
  cases hfeat : layer.feature with
  | none =>
    rw [update_travel_times_no_feature layer ds hfeat,
      update_travel_times_no_feature layer ds hfeat]
  | some f =>
    cases ds with
    | nil =>
      have h1 := update_travel_times_nil layer f hfeat
      have h2 := update_travel_times_nil (update_travel_times layer [])
        ({ f with properties := setProp f.properties "tt" (JSNum.num 999) })
        (by rw [h1])
      rw [h2, h1]
      dsimp only
      rw [setProp_setProp]
    | cons d rest =>
      obtain ⟨y, hy⟩ := fold_tt_shape (d :: rest) f.properties (JSNum.num 0)
      have h1 := update_travel_times_cons layer f d rest hfeat
      rw [hy] at h1
      have h2 := update_travel_times_cons (update_travel_times layer (d :: rest))
        ({ f with properties := setProp f.properties "tt" y }) d rest
        (by rw [h1])
      rw [h2, h1]
      dsimp only
      rw [setProp_setProp, hy]

/-- C7: the recompute-all pass is idempotent — running it twice in a row
with the same active set returns exactly the same layers (hence identical
`tt` fields); the second pass changes nothing. -/
theorem recompute_all_idem (layers : List Layer) (ds : List String) :
    recompute_all (recompute_all layers ds) ds = recompute_all layers ds := by
  unfold recompute_all
  rw [List.map_map]
  apply List.map_congr_left
  intro layer _
  exact update_travel_times_idem layer ds

end CityWalkability
